import Mathlib

/-!
# Verification of `wangle/acceptor/ManagedConnection.h`

A shallow embedding of the `ManagedConnection` drain state machine and the
surrounding lifecycle contract, together with proofs of the specified
properties.

The source file embeds:
* `DrainState` and the private field `state_` (initialised to `NONE`);
* `fireNotifyPendingShutdown` and `fireCloseWhenIdle`, the guarded drain
  transitions;
* `getConnectionManager` / `setConnectionManager` and the
  `connectionManager_` back-reference;
* the default `getIdleTime` implementation (returns 0 milliseconds).

Invocations of the pure-virtual subtype hooks `notifyPendingShutdown()` and
`closeWhenIdle()` are recorded in an event log `events`, so that "the hook
fires exactly once" becomes a statement about the log.  The bodies of
`ManagedConnection::resetTimeout` and of the collaborators (connection
manager eviction, the deferred-destruction guard) are not among the sources,
only their declarations and documentation; those are modelled from the spec
and are marked as such in their doc comments.
-/

namespace Wangle

/-- The private `DrainState` enum of `ManagedConnection`
(`NONE`, `SENT_NOTIFY_PENDING_SHUTDOWN`, `SENT_CLOSE_WHEN_IDLE`). -/
inductive DrainState where
  | NONE
  | SENT_NOTIFY_PENDING_SHUTDOWN
  | SENT_CLOSE_WHEN_IDLE
deriving DecidableEq, Repr

/-- Invocations of the pure-virtual subtype hooks, recorded as observable
events. -/
inductive HookEvent where
  | notifyPendingShutdown
  | closeWhenIdle
deriving DecidableEq, Repr

/-- A stand-in for the external `ConnectionManager` collaborator: only the
data the managed connection consumes (its configured default timeout
interval, in milliseconds) is represented. -/
structure ConnectionManager where
  defaultTimeout_ : Nat
deriving DecidableEq, Repr

/-- State of a `ManagedConnection`:
* `state_` — the drain state (`DrainState state_{DrainState::NONE}`);
* `connectionManager_` — the non-owning back-reference, `none` for the null
  pointer;
* `pendingTimeout` — the outstanding idle-timeout registration on the
  manager's wheel timer, `none` when no timeout is scheduled;
* `events` — the log of subtype-hook invocations, oldest first. -/
structure ManagedConnection where
  state_ : DrainState
  connectionManager_ : Option ConnectionManager
  pendingTimeout : Option Nat
  events : List HookEvent
deriving DecidableEq, Repr

/-- A freshly constructed connection: drain state `NONE` (the in-class
initialiser), no manager attached yet, no timeout scheduled, no hook
invoked. -/
def initialConnection : ManagedConnection :=
  { state_ := DrainState.NONE
    connectionManager_ := none
    pendingTimeout := none
    events := [] }

/-- `void fireNotifyPendingShutdown()`: if `state_ == DrainState::NONE`,
set `state_ = DrainState::SENT_NOTIFY_PENDING_SHUTDOWN` and invoke the
`notifyPendingShutdown()` hook; otherwise do nothing. -/
def fireNotifyPendingShutdown (c : ManagedConnection) : ManagedConnection :=
  if c.state_ = DrainState.NONE then
    { c with
        state_ := DrainState.SENT_NOTIFY_PENDING_SHUTDOWN
        events := c.events ++ [HookEvent.notifyPendingShutdown] }
  else
    c

/-- `void fireCloseWhenIdle(bool force_to_close = false)`: if
`force_to_close || state_ == DrainState::SENT_NOTIFY_PENDING_SHUTDOWN`,
set `state_ = DrainState::SENT_CLOSE_WHEN_IDLE` and invoke the
`closeWhenIdle()` hook; otherwise do nothing. -/
def fireCloseWhenIdle (force_to_close : Bool) (c : ManagedConnection) :
    ManagedConnection :=
  if force_to_close = true ∨ c.state_ = DrainState.SENT_NOTIFY_PENDING_SHUTDOWN then
    { c with
        state_ := DrainState.SENT_CLOSE_WHEN_IDLE
        events := c.events ++ [HookEvent.closeWhenIdle] }
  else
    c

/-- `ConnectionManager* getConnectionManager()`. -/
def getConnectionManager (c : ManagedConnection) : Option ConnectionManager :=
  c.connectionManager_

/-- `void setConnectionManager(ConnectionManager* mgr)`. -/
def setConnectionManager (mgr : Option ConnectionManager)
    (c : ManagedConnection) : ManagedConnection :=
  { c with connectionManager_ := mgr }

/-- The default implementation of
`virtual std::chrono::milliseconds getIdleTime() const`, returning
`std::chrono::milliseconds(0)` (milliseconds as `Nat`). -/
def defaultGetIdleTime : Nat := 0

/-- One drain-protocol operation, as issued by a manager sweep:
`fireNotifyPendingShutdown()` or `fireCloseWhenIdle(force)`. -/
inductive DrainOp where
  | notify
  | close (force_to_close : Bool)
deriving DecidableEq, Repr

/-- Apply one drain operation to a connection. -/
def applyOp (c : ManagedConnection) (op : DrainOp) : ManagedConnection :=
  match op with
  | DrainOp.notify => fireNotifyPendingShutdown c
  | DrainOp.close f => fireCloseWhenIdle f c

/-- Run a sequence of drain operations, first operation first. -/
def runOps (c : ManagedConnection) : List DrainOp → ManagedConnection
  | [] => c
  | op :: rest => runOps (applyOp c op) rest

/-- The sequence of drain states a connection passes through while a
sequence of operations runs: the state before the first operation, then the
state after each operation. -/
def trajectory (c : ManagedConnection) : List DrainOp → List DrainState
  | [] => [c.state_]
  | op :: rest => c.state_ :: trajectory (applyOp c op) rest

/-- Collapse adjacent equal states, so the result is the sequence of
distinct drain states actually visited. -/
def dedupAdj : List DrainState → List DrainState
  | [] => []
  | [s] => [s]
  | s :: s' :: rest =>
      if s = s' then dedupAdj (s' :: rest) else s :: dedupAdj (s' :: rest)

/-- Position of a drain state in the forward order
`NONE → SENT_NOTIFY_PENDING_SHUTDOWN → SENT_CLOSE_WHEN_IDLE`. -/
def drainRank : DrainState → Nat
  | DrainState.NONE => 0
  | DrainState.SENT_NOTIFY_PENDING_SHUTDOWN => 1
  | DrainState.SENT_CLOSE_WHEN_IDLE => 2

/-- The truncated initial segments of the full drain order
`[NONE, SENT_NOTIFY_PENDING_SHUTDOWN, SENT_CLOSE_WHEN_IDLE]`. -/
def drainOrderInits : List (List DrainState) :=
  [[],
   [DrainState.NONE],
   [DrainState.NONE, DrainState.SENT_NOTIFY_PENDING_SHUTDOWN],
   [DrainState.NONE, DrainState.SENT_NOTIFY_PENDING_SHUTDOWN,
    DrainState.SENT_CLOSE_WHEN_IDLE]]

/-- The strictly advancing drain-state sequences that can start at a given
state: every order-preserving selection from
`NONE → SENT_NOTIFY_PENDING_SHUTDOWN → SENT_CLOSE_WHEN_IDLE` whose first
element is the given state. -/
def tailsAllowed : DrainState → List (List DrainState)
  | DrainState.NONE =>
      [[DrainState.NONE],
       [DrainState.NONE, DrainState.SENT_NOTIFY_PENDING_SHUTDOWN],
       [DrainState.NONE, DrainState.SENT_CLOSE_WHEN_IDLE],
       [DrainState.NONE, DrainState.SENT_NOTIFY_PENDING_SHUTDOWN,
        DrainState.SENT_CLOSE_WHEN_IDLE]]
  | DrainState.SENT_NOTIFY_PENDING_SHUTDOWN =>
      [[DrainState.SENT_NOTIFY_PENDING_SHUTDOWN],
       [DrainState.SENT_NOTIFY_PENDING_SHUTDOWN, DrainState.SENT_CLOSE_WHEN_IDLE]]
  | DrainState.SENT_CLOSE_WHEN_IDLE =>
      [[DrainState.SENT_CLOSE_WHEN_IDLE]]

/-- Like `tailsAllowed`, but restricted to what is reachable when no forced
close is issued: the `NONE → SENT_CLOSE_WHEN_IDLE` skip is absent. -/
def tailsAllowedNoForce : DrainState → List (List DrainState)
  | DrainState.NONE =>
      [[DrainState.NONE],
       [DrainState.NONE, DrainState.SENT_NOTIFY_PENDING_SHUTDOWN],
       [DrainState.NONE, DrainState.SENT_NOTIFY_PENDING_SHUTDOWN,
        DrainState.SENT_CLOSE_WHEN_IDLE]]
  | DrainState.SENT_NOTIFY_PENDING_SHUTDOWN =>
      [[DrainState.SENT_NOTIFY_PENDING_SHUTDOWN],
       [DrainState.SENT_NOTIFY_PENDING_SHUTDOWN, DrainState.SENT_CLOSE_WHEN_IDLE]]
  | DrainState.SENT_CLOSE_WHEN_IDLE =>
      [[DrainState.SENT_CLOSE_WHEN_IDLE]]

/-- Modelled from the spec: the body of `ManagedConnection::resetTimeout` is
declared in the header but defined in a translation unit that is not among
the sources here.  Per the spec (§4.2): if the connection has a connection
manager, reset the idle-timeout countdown to the manager's default timeout,
scheduling a timeout if none is pending and replacing the pending one
otherwise; if no manager is attached, this is a no-op. -/
def resetTimeout (c : ManagedConnection) : ManagedConnection :=
  match c.connectionManager_ with
  | none => c
  | some mgr => { c with pendingTimeout := some mgr.defaultTimeout_ }

/-- Modelled from the spec: the idle-based pre-load-shedding eviction logic
lives in the external connection manager, not among these sources.  Per the
header comment on `getIdleTime` ("If it returning 0, that means the idle
connections will never be dropped during pre load shedding stage") and spec
§8, eviction selects a connection only when its reported idle time is
nonzero and has reached the eviction threshold. -/
def idleEvictionSelects (idleTime threshold : Nat) : Bool :=
  idleTime != 0 && decide (threshold ≤ idleTime)

/-- Modelled from the spec: the deferred-destruction guard
(`folly::DelayedDestruction`, which `ManagedConnection` derives from) and
the callback dispatch sites that hold guards are not among the sources here.
Per the spec (§2, §9): a reference-counted lifetime state; `guardCount` is
the number of live guard scopes (every callback invocation on the object
runs inside one), `destroyPending` records a destruction request deferred
because guards were held, `destroyed` records that actual destruction has
happened. -/
structure GuardedLifecycle where
  guardCount : Nat
  destroyPending : Bool
  destroyed : Bool
deriving DecidableEq, Repr

/-- Events of the deferred-destruction protocol: a callback on the object
begins (acquiring a guard), a callback returns (releasing its guard), or
destruction of the object is requested. -/
inductive LifecycleOp where
  | enterCallback
  | exitCallback
  | destroy
deriving DecidableEq, Repr

/-- Modelled from the spec: one step of the deferred-destruction protocol.
Destruction while guards are held is only marked pending; actual
destruction happens when the outermost guard scope exits.  A destructed
object takes part in no further steps, and releasing a guard that was never
acquired is not modelled (no-op). -/
def lifecycleStep (g : GuardedLifecycle) (op : LifecycleOp) : GuardedLifecycle :=
  if g.destroyed = true then g
  else
    match op with
    | LifecycleOp.enterCallback => { g with guardCount := g.guardCount + 1 }
    | LifecycleOp.exitCallback =>
        match g.guardCount with
        | 0 => g
        | 1 => { guardCount := 0, destroyPending := false, destroyed := g.destroyPending }
        | n + 2 => { g with guardCount := n + 1 }
    | LifecycleOp.destroy =>
        if g.guardCount = 0 then { g with destroyed := true }
        else { g with destroyPending := true }

/-- Run a sequence of lifecycle events, first event first. -/
def runLifecycle (g : GuardedLifecycle) : List LifecycleOp → GuardedLifecycle
  | [] => g
  | op :: rest => runLifecycle (lifecycleStep g op) rest

/-- A live object with no callback in flight and no destruction requested. -/
def initialLifecycle : GuardedLifecycle :=
  { guardCount := 0, destroyPending := false, destroyed := false }

/-- Invariant tying the hook log to the drain state: the
`notifyPendingShutdown` hook has fired at most once, and not at all while
the drain state is still `NONE`. -/
def notifyInv (c : ManagedConnection) : Prop :=
  c.events.count HookEvent.notifyPendingShutdown ≤ 1 ∧
  (c.state_ = DrainState.NONE →
    c.events.count HookEvent.notifyPendingShutdown = 0)

/-- Invariant for runs containing no forced close: the drain state
determines the hook log exactly. -/
def sweepInv (c : ManagedConnection) : Prop :=
  (c.state_ = DrainState.NONE ∧ c.events = []) ∨
  (c.state_ = DrainState.SENT_NOTIFY_PENDING_SHUTDOWN ∧
    c.events = [HookEvent.notifyPendingShutdown]) ∨
  (c.state_ = DrainState.SENT_CLOSE_WHEN_IDLE ∧
    c.events = [HookEvent.notifyPendingShutdown, HookEvent.closeWhenIdle])

/-- Invariant of the deferred-destruction protocol: a destructed object has
no live guard scope, i.e. no callback of its own still on the stack. -/
def lifecycleInv (g : GuardedLifecycle) : Prop :=
  g.destroyed = true → g.guardCount = 0

/-- The drain states one drain operation can move a connection to, from a
given state (including staying put). -/
def succAllowed : DrainState → List DrainState
  | DrainState.NONE =>
      [DrainState.NONE, DrainState.SENT_NOTIFY_PENDING_SHUTDOWN,
       DrainState.SENT_CLOSE_WHEN_IDLE]
  | DrainState.SENT_NOTIFY_PENDING_SHUTDOWN =>
      [DrainState.SENT_NOTIFY_PENDING_SHUTDOWN, DrainState.SENT_CLOSE_WHEN_IDLE]
  | DrainState.SENT_CLOSE_WHEN_IDLE =>
      [DrainState.SENT_CLOSE_WHEN_IDLE]

/-- Like `succAllowed`, but for operations that are not a forced close: the
direct `NONE → SENT_CLOSE_WHEN_IDLE` edge is absent. -/
def succAllowedNoForce : DrainState → List DrainState
  | DrainState.NONE =>
      [DrainState.NONE, DrainState.SENT_NOTIFY_PENDING_SHUTDOWN]
  | DrainState.SENT_NOTIFY_PENDING_SHUTDOWN =>
      [DrainState.SENT_NOTIFY_PENDING_SHUTDOWN, DrainState.SENT_CLOSE_WHEN_IDLE]
  | DrainState.SENT_CLOSE_WHEN_IDLE =>
      [DrainState.SENT_CLOSE_WHEN_IDLE]

lemma fireNotifyPendingShutdown_of_none (c : ManagedConnection)
    (h : c.state_ = DrainState.NONE) :
    fireNotifyPendingShutdown c =
      { c with
          state_ := DrainState.SENT_NOTIFY_PENDING_SHUTDOWN
          events := c.events ++ [HookEvent.notifyPendingShutdown] } := by
  simp [fireNotifyPendingShutdown, h]

lemma fireNotifyPendingShutdown_of_ne (c : ManagedConnection)
    (h : c.state_ ≠ DrainState.NONE) :
    fireNotifyPendingShutdown c = c := by
  simp [fireNotifyPendingShutdown, h]

lemma fireCloseWhenIdle_of_cond (c : ManagedConnection) (f : Bool)
    (h : f = true ∨ c.state_ = DrainState.SENT_NOTIFY_PENDING_SHUTDOWN) :
    fireCloseWhenIdle f c =
      { c with
          state_ := DrainState.SENT_CLOSE_WHEN_IDLE
          events := c.events ++ [HookEvent.closeWhenIdle] } := by
  unfold fireCloseWhenIdle
  rw [if_pos h]

lemma fireCloseWhenIdle_of_not (c : ManagedConnection) (f : Bool)
    (h : ¬(f = true ∨ c.state_ = DrainState.SENT_NOTIFY_PENDING_SHUTDOWN)) :
    fireCloseWhenIdle f c = c := by
  unfold fireCloseWhenIdle
  rw [if_neg h]

lemma runOps_nil (c : ManagedConnection) : runOps c [] = c := rfl

lemma runOps_cons (c : ManagedConnection) (op : DrainOp) (rest : List DrainOp) :
    runOps c (op :: rest) = runOps (applyOp c op) rest := rfl

lemma runOps_append (c : ManagedConnection) (l₁ l₂ : List DrainOp) :
    runOps c (l₁ ++ l₂) = runOps (runOps c l₁) l₂ := by
  induction l₁ generalizing c with
  | nil => rfl
  | cons op rest ih => simpa [runOps_cons] using ih (applyOp c op)

lemma notifyInv_applyOp (c : ManagedConnection) (op : DrainOp)
    (h : notifyInv c) : notifyInv (applyOp c op) := by
  obtain ⟨h1, h2⟩ := h
  cases op with
  | notify =>
      by_cases hs : c.state_ = DrainState.NONE
      · rw [applyOp, fireNotifyPendingShutdown_of_none c hs]
        refine ⟨?_, ?_⟩
        · simp [List.count_append, h2 hs]
        · intro hcontra
          simp at hcontra
      · rw [applyOp, fireNotifyPendingShutdown_of_ne c hs]
        exact ⟨h1, h2⟩
  | close f =>
      by_cases hc : f = true ∨ c.state_ = DrainState.SENT_NOTIFY_PENDING_SHUTDOWN
      · rw [applyOp, fireCloseWhenIdle_of_cond c f hc]
        refine ⟨?_, ?_⟩
        · simpa [List.count_append] using h1
        · intro hcontra
          simp at hcontra
      · rw [applyOp, fireCloseWhenIdle_of_not c f hc]
        exact ⟨h1, h2⟩

lemma notifyInv_runOps (ops : List DrainOp) :
    ∀ c : ManagedConnection, notifyInv c → notifyInv (runOps c ops) := by
  induction ops with
  | nil => intro c h; exact h
  | cons op rest ih =>
      intro c h
      exact ih (applyOp c op) (notifyInv_applyOp c op h)

lemma notifyInv_initial : notifyInv initialConnection := by
  constructor <;> simp [initialConnection]

lemma sweepInv_applyOp (c : ManagedConnection) (op : DrainOp)
    (hop : op ≠ DrainOp.close true) (h : sweepInv c) : sweepInv (applyOp c op) := by
  cases op with
  | notify =>
      rcases h with ⟨hs, he⟩ | ⟨hs, he⟩ | ⟨hs, he⟩
      · rw [applyOp, fireNotifyPendingShutdown_of_none c hs]
        refine Or.inr (Or.inl ⟨rfl, ?_⟩)
        simp [he]
      · rw [applyOp, fireNotifyPendingShutdown_of_ne c (by simp [hs])]
        exact Or.inr (Or.inl ⟨hs, he⟩)
      · rw [applyOp, fireNotifyPendingShutdown_of_ne c (by simp [hs])]
        exact Or.inr (Or.inr ⟨hs, he⟩)
  | close f =>
      have hf : f = false := by
        cases f
        · rfl
        · exact absurd rfl hop
      subst hf
      rcases h with ⟨hs, he⟩ | ⟨hs, he⟩ | ⟨hs, he⟩
      · rw [applyOp, fireCloseWhenIdle_of_not c false (by simp [hs])]
        exact Or.inl ⟨hs, he⟩
      · rw [applyOp, fireCloseWhenIdle_of_cond c false (Or.inr hs)]
        refine Or.inr (Or.inr ⟨rfl, ?_⟩)
        simp [he]
      · rw [applyOp, fireCloseWhenIdle_of_not c false (by simp [hs])]
        exact Or.inr (Or.inr ⟨hs, he⟩)

lemma sweepInv_runOps (ops : List DrainOp) :
    ∀ c : ManagedConnection, DrainOp.close true ∉ ops → sweepInv c →
      sweepInv (runOps c ops) := by
  induction ops with
  | nil => intro c _ h; exact h
  | cons op rest ih =>
      intro c hmem h
      have hop : op ≠ DrainOp.close true := by
        intro hcontra
        exact hmem (hcontra ▸ List.mem_cons_self op rest)
      have hrest : DrainOp.close true ∉ rest := by
        intro hcontra
        exact hmem (List.mem_cons_of_mem op hcontra)
      exact ih (applyOp c op) hrest (sweepInv_applyOp c op hop h)

lemma sweepInv_initial : sweepInv initialConnection := Or.inl ⟨rfl, rfl⟩

lemma drainRank_le_two (s : DrainState) : drainRank s ≤ 2 := by
  cases s <;> simp [drainRank]

lemma drainRank_le_applyOp (c : ManagedConnection) (op : DrainOp) :
    drainRank c.state_ ≤ drainRank (applyOp c op).state_ := by
  cases op with
  | notify =>
      by_cases hs : c.state_ = DrainState.NONE
      · rw [applyOp, fireNotifyPendingShutdown_of_none c hs, hs]
        simp [drainRank]
      · rw [applyOp, fireNotifyPendingShutdown_of_ne c hs]
  | close f =>
      by_cases hc : f = true ∨ c.state_ = DrainState.SENT_NOTIFY_PENDING_SHUTDOWN
      · rw [applyOp, fireCloseWhenIdle_of_cond c f hc]
        exact drainRank_le_two c.state_
      · rw [applyOp, fireCloseWhenIdle_of_not c f hc]

lemma drainRank_le_runOps (ops : List DrainOp) :
    ∀ c : ManagedConnection, drainRank c.state_ ≤ drainRank (runOps c ops).state_ := by
  induction ops with
  | nil => intro c; exact Nat.le_refl _
  | cons op rest ih =>
      intro c
      exact Nat.le_trans (drainRank_le_applyOp c op) (ih (applyOp c op))

lemma trajectory_head (ops : List DrainOp) (c : ManagedConnection) :
    ∃ t, trajectory c ops = c.state_ :: t := by
  cases ops with
  | nil => exact ⟨[], rfl⟩
  | cons op rest => exact ⟨trajectory (applyOp c op) rest, rfl⟩

lemma applyOp_state_mem_succAllowed (c : ManagedConnection) (op : DrainOp) :
    (applyOp c op).state_ ∈ succAllowed c.state_ := by
  cases op with
  | notify =>
      by_cases hs : c.state_ = DrainState.NONE
      · rw [applyOp, fireNotifyPendingShutdown_of_none c hs, hs]
        simp [succAllowed]
      · rw [applyOp, fireNotifyPendingShutdown_of_ne c hs]
        cases c.state_ <;> decide
  | close f =>
      by_cases hc : f = true ∨ c.state_ = DrainState.SENT_NOTIFY_PENDING_SHUTDOWN
      · rw [applyOp, fireCloseWhenIdle_of_cond c f hc]
        cases c.state_ <;> simp [succAllowed]
      · rw [applyOp, fireCloseWhenIdle_of_not c f hc]
        cases c.state_ <;> decide

lemma applyOp_state_mem_succAllowedNoForce (c : ManagedConnection) (op : DrainOp)
    (hop : op ≠ DrainOp.close true) :
    (applyOp c op).state_ ∈ succAllowedNoForce c.state_ := by
  cases op with
  | notify =>
      by_cases hs : c.state_ = DrainState.NONE
      · rw [applyOp, fireNotifyPendingShutdown_of_none c hs, hs]
        simp [succAllowedNoForce]
      · rw [applyOp, fireNotifyPendingShutdown_of_ne c hs]
        cases c.state_ <;> decide
  | close f =>
      have hf : f = false := by
        cases f
        · rfl
        · exact absurd rfl hop
      subst hf
      by_cases hc : c.state_ = DrainState.SENT_NOTIFY_PENDING_SHUTDOWN
      · rw [applyOp, fireCloseWhenIdle_of_cond c false (Or.inr hc), hc]
        simp [succAllowedNoForce]
      · rw [applyOp, fireCloseWhenIdle_of_not c false (by simp [hc])]
        cases c.state_ <;> decide

lemma dedupAdj_cons_mem (s s' : DrainState) (t : List DrainState)
    (hedge : s' ∈ succAllowed s)
    (h : dedupAdj (s' :: t) ∈ tailsAllowed s') :
    dedupAdj (s :: s' :: t) ∈ tailsAllowed s := by
  by_cases hss : s = s'
  · subst hss
    rw [show dedupAdj (s :: s :: t) = dedupAdj (s :: t) from by simp [dedupAdj]]
    exact h
  · rw [show dedupAdj (s :: s' :: t) = s :: dedupAdj (s' :: t) from by
      simp [dedupAdj, hss]]
    cases s with
    | NONE =>
        cases s' with
        | NONE => exact absurd rfl hss
        | SENT_NOTIFY_PENDING_SHUTDOWN =>
            simp [tailsAllowed] at h ⊢
            rcases h with h | h <;> simp [h]
        | SENT_CLOSE_WHEN_IDLE =>
            simp [tailsAllowed] at h ⊢
            simp [h]
    | SENT_NOTIFY_PENDING_SHUTDOWN =>
        cases s' with
        | NONE => exact absurd hedge (by decide)
        | SENT_NOTIFY_PENDING_SHUTDOWN => exact absurd rfl hss
        | SENT_CLOSE_WHEN_IDLE =>
            simp [tailsAllowed] at h ⊢
            simp [h]
    | SENT_CLOSE_WHEN_IDLE =>
        cases s' with
        | NONE => exact absurd hedge (by decide)
        | SENT_NOTIFY_PENDING_SHUTDOWN => exact absurd hedge (by decide)
        | SENT_CLOSE_WHEN_IDLE => exact absurd rfl hss

lemma dedupAdj_cons_mem_noForce (s s' : DrainState) (t : List DrainState)
    (hedge : s' ∈ succAllowedNoForce s)
    (h : dedupAdj (s' :: t) ∈ tailsAllowedNoForce s') :
    dedupAdj (s :: s' :: t) ∈ tailsAllowedNoForce s := by
  by_cases hss : s = s'
  · subst hss
    rw [show dedupAdj (s :: s :: t) = dedupAdj (s :: t) from by simp [dedupAdj]]
    exact h
  · rw [show dedupAdj (s :: s' :: t) = s :: dedupAdj (s' :: t) from by
      simp [dedupAdj, hss]]
    cases s with
    | NONE =>
        cases s' with
        | NONE => exact absurd rfl hss
        | SENT_NOTIFY_PENDING_SHUTDOWN =>
            simp [tailsAllowedNoForce] at h ⊢
            rcases h with h | h <;> simp [h]
        | SENT_CLOSE_WHEN_IDLE => exact absurd hedge (by decide)
    | SENT_NOTIFY_PENDING_SHUTDOWN =>
        cases s' with
        | NONE => exact absurd hedge (by decide)
        | SENT_NOTIFY_PENDING_SHUTDOWN => exact absurd rfl hss
        | SENT_CLOSE_WHEN_IDLE =>
            simp [tailsAllowedNoForce] at h ⊢
            simp [h]
    | SENT_CLOSE_WHEN_IDLE =>
        cases s' with
        | NONE => exact absurd hedge (by decide)
        | SENT_NOTIFY_PENDING_SHUTDOWN => exact absurd hedge (by decide)
        | SENT_CLOSE_WHEN_IDLE => exact absurd rfl hss

lemma dedupAdj_trajectory_mem (ops : List DrainOp) :
    ∀ c : ManagedConnection, dedupAdj (trajectory c ops) ∈ tailsAllowed c.state_ := by
  induction ops with
  | nil =>
      intro c
      rw [show trajectory c [] = [c.state_] from rfl]
      cases c.state_ <;> decide
  | cons op rest ih =>
      intro c
      obtain ⟨t, ht⟩ := trajectory_head rest (applyOp c op)
      have hmem := ih (applyOp c op)
      rw [ht] at hmem
      rw [show trajectory c (op :: rest) =
            c.state_ :: trajectory (applyOp c op) rest from rfl, ht]
      exact dedupAdj_cons_mem c.state_ (applyOp c op).state_ t
        (applyOp_state_mem_succAllowed c op) hmem

lemma dedupAdj_trajectory_mem_noForce (ops : List DrainOp) :
    ∀ c : ManagedConnection, DrainOp.close true ∉ ops →
      dedupAdj (trajectory c ops) ∈ tailsAllowedNoForce c.state_ := by
  induction ops with
  | nil =>
      intro c _
      rw [show trajectory c [] = [c.state_] from rfl]
      cases c.state_ <;> decide
  | cons op rest ih =>
      intro c hmem
      have hop : op ≠ DrainOp.close true := by
        intro hcontra
        exact hmem (hcontra ▸ List.mem_cons_self op rest)
      have hrest : DrainOp.close true ∉ rest := by
        intro hcontra
        exact hmem (List.mem_cons_of_mem op hcontra)
      obtain ⟨t, ht⟩ := trajectory_head rest (applyOp c op)
      have hm := ih (applyOp c op) hrest
      rw [ht] at hm
      rw [show trajectory c (op :: rest) =
            c.state_ :: trajectory (applyOp c op) rest from rfl, ht]
      exact dedupAdj_cons_mem_noForce c.state_ (applyOp c op).state_ t
        (applyOp_state_mem_succAllowedNoForce c op hop) hm

lemma lifecycleInv_step (g : GuardedLifecycle) (op : LifecycleOp)
    (h : lifecycleInv g) : lifecycleInv (lifecycleStep g op) := by
  unfold lifecycleStep
  by_cases hd : g.destroyed = true
  · rw [if_pos hd]
    exact h
  · rw [if_neg hd]
    cases op with
    | enterCallback =>
        intro hcontra
        exact absurd hcontra hd
    | exitCallback =>
        rcases hg : g.guardCount with _ | n
        · exact h
        · cases n with
          | zero =>
              intro _
              rfl
          | succ m =>
              intro hcontra
              exact absurd hcontra hd
    | destroy =>
        by_cases hg : g.guardCount = 0
        · rw [if_pos hg]
          intro _
          exact hg
        · rw [if_neg hg]
          intro hcontra
          exact absurd hcontra hd

lemma lifecycleInv_run (ops : List LifecycleOp) :
    ∀ g : GuardedLifecycle, lifecycleInv g → lifecycleInv (runLifecycle g ops) := by
  induction ops with
  | nil => intro g h; exact h
  | cons op rest ih =>
      intro g h
      exact ih (lifecycleStep g op) (lifecycleInv_step g op h)

lemma lifecycleStep_destroy_deferred (g : GuardedLifecycle)
    (hd : g.destroyed = false) (hg : 0 < g.guardCount) :
    (lifecycleStep g LifecycleOp.destroy).destroyed = false ∧
    (lifecycleStep g LifecycleOp.destroy).guardCount = g.guardCount := by
  unfold lifecycleStep
  rw [if_neg (by simp [hd]), if_neg (Nat.pos_iff_ne_zero.mp hg)]
  exact ⟨hd, rfl⟩

lemma fireNotifyPendingShutdown_frame (c : ManagedConnection) :
    (fireNotifyPendingShutdown c).connectionManager_ = c.connectionManager_ ∧
    (fireNotifyPendingShutdown c).pendingTimeout = c.pendingTimeout := by
  unfold fireNotifyPendingShutdown
  split <;> exact ⟨rfl, rfl⟩

lemma fireCloseWhenIdle_frame (c : ManagedConnection) (f : Bool) :
    (fireCloseWhenIdle f c).connectionManager_ = c.connectionManager_ ∧
    (fireCloseWhenIdle f c).pendingTimeout = c.pendingTimeout := by
  unfold fireCloseWhenIdle
  split <;> exact ⟨rfl, rfl⟩

lemma applyOp_connectionManager (c : ManagedConnection) (op : DrainOp) :
    (applyOp c op).connectionManager_ = c.connectionManager_ := by
  cases op with
  | notify => exact (fireNotifyPendingShutdown_frame c).1
  | close f => exact (fireCloseWhenIdle_frame c f).1

lemma runOps_connectionManager (ops : List DrainOp) :
    ∀ c : ManagedConnection, (runOps c ops).connectionManager_ = c.connectionManager_ := by
  induction ops with
  | nil => intro c; rfl
  | cons op rest ih =>
      intro c
      rw [runOps_cons, ih (applyOp c op), applyOp_connectionManager]

/-- Claim C1: for every prior drain state, `fireCloseWhenIdle(force)` with
`force = true`, or with the current state `SENT_NOTIFY_PENDING_SHUTDOWN`,
sets the state to `SENT_CLOSE_WHEN_IDLE` and invokes the subtype's
`closeWhenIdle` hook exactly once (one event is appended to the hook log);
in every other case it is a no-op that changes nothing and invokes no hook,
and `force = true` fires regardless of the prior state. -/
theorem fireCloseWhenIdle_spec (c : ManagedConnection) (force_to_close : Bool) :
    ((force_to_close = true ∨
        c.state_ = DrainState.SENT_NOTIFY_PENDING_SHUTDOWN) →
      (fireCloseWhenIdle force_to_close c).state_ = DrainState.SENT_CLOSE_WHEN_IDLE ∧
      (fireCloseWhenIdle force_to_close c).events =
        c.events ++ [HookEvent.closeWhenIdle]) ∧
    (¬(force_to_close = true ∨
        c.state_ = DrainState.SENT_NOTIFY_PENDING_SHUTDOWN) →
      fireCloseWhenIdle force_to_close c = c) := by
  constructor
  · intro h
    rw [fireCloseWhenIdle_of_cond c force_to_close h]
    exact ⟨rfl, rfl⟩
  · intro h
    exact fireCloseWhenIdle_of_not c force_to_close h

/-- Witness for C1 at concrete inputs: a forced close from the initial
state fires the hook and reaches `SENT_CLOSE_WHEN_IDLE`; an unforced close
from the initial state is a no-op. -/
theorem fireCloseWhenIdle_spec_witness :
    (fireCloseWhenIdle true initialConnection).state_ =
        DrainState.SENT_CLOSE_WHEN_IDLE ∧
    (fireCloseWhenIdle true initialConnection).events =
        initialConnection.events ++ [HookEvent.closeWhenIdle] ∧
    fireCloseWhenIdle false initialConnection = initialConnection := by
  refine ⟨?_, ?_, ?_⟩
  · exact ((fireCloseWhenIdle_spec initialConnection true).1 (Or.inl rfl)).1
  · exact ((fireCloseWhenIdle_spec initialConnection true).1 (Or.inl rfl)).2
  · exact (fireCloseWhenIdle_spec initialConnection false).2 (by decide)

/-- Claim C2: `fireNotifyPendingShutdown` transitions `NONE` to
`SENT_NOTIFY_PENDING_SHUTDOWN` and invokes the `notifyPendingShutdown` hook
when the state is `NONE`, is a silent no-op in every other state, the hook
fires at most once over every sequence of drain operations, and calling it
twice fires the hook exactly once. -/
theorem fireNotifyPendingShutdown_spec :
    (∀ c : ManagedConnection, c.state_ = DrainState.NONE →
        fireNotifyPendingShutdown c =
          { c with
              state_ := DrainState.SENT_NOTIFY_PENDING_SHUTDOWN
              events := c.events ++ [HookEvent.notifyPendingShutdown] }) ∧
    (∀ c : ManagedConnection, c.state_ ≠ DrainState.NONE →
        fireNotifyPendingShutdown c = c) ∧
    (∀ ops : List DrainOp,
        (runOps initialConnection ops).events.count
            HookEvent.notifyPendingShutdown ≤ 1) ∧
    (runOps initialConnection [DrainOp.notify, DrainOp.notify]).events.count
        HookEvent.notifyPendingShutdown = 1 := by
  refine ⟨fireNotifyPendingShutdown_of_none, fireNotifyPendingShutdown_of_ne, ?_, ?_⟩
  · intro ops
    exact (notifyInv_runOps ops initialConnection notifyInv_initial).1
  · decide

/-- Witness for C2 at concrete inputs: from the initial state the hook
fires and the state advances; from a later state the call is the
identity. -/
theorem fireNotifyPendingShutdown_spec_witness :
    fireNotifyPendingShutdown initialConnection =
      { initialConnection with
          state_ := DrainState.SENT_NOTIFY_PENDING_SHUTDOWN
          events := initialConnection.events ++ [HookEvent.notifyPendingShutdown] } ∧
    fireNotifyPendingShutdown
        { state_ := DrainState.SENT_CLOSE_WHEN_IDLE
          connectionManager_ := none
          pendingTimeout := none
          events := [] } =
      { state_ := DrainState.SENT_CLOSE_WHEN_IDLE
        connectionManager_ := none
        pendingTimeout := none
        events := [] } := by
  constructor
  · exact fireNotifyPendingShutdown_spec.1 initialConnection rfl
  · exact fireNotifyPendingShutdown_spec.2.1 _ (by decide)

/-- Claim C3: under every sequence of `fireNotifyPendingShutdown` and
`fireCloseWhenIdle` calls (any force arguments) the drain state only moves
forward in the order `NONE`, `SENT_NOTIFY_PENDING_SHUTDOWN`,
`SENT_CLOSE_WHEN_IDLE` (its rank never decreases, stepwise and across any
continuation of a run), and an operation whose required predecessor state
does not match leaves the connection unchanged rather than failing. -/
theorem drainState_forward_only :
    (∀ (c : ManagedConnection) (op : DrainOp),
        drainRank c.state_ ≤ drainRank (applyOp c op).state_) ∧
    (∀ (c : ManagedConnection) (l₁ l₂ : List DrainOp),
        drainRank (runOps c l₁).state_ ≤ drainRank (runOps c (l₁ ++ l₂)).state_) ∧
    (∀ c : ManagedConnection, c.state_ ≠ DrainState.NONE →
        fireNotifyPendingShutdown c = c) ∧
    (∀ c : ManagedConnection, c.state_ ≠ DrainState.SENT_NOTIFY_PENDING_SHUTDOWN →
        fireCloseWhenIdle false c = c) := by
  refine ⟨drainRank_le_applyOp, ?_, fireNotifyPendingShutdown_of_ne, ?_⟩
  · intro c l₁ l₂
    rw [runOps_append]
    exact drainRank_le_runOps l₂ (runOps c l₁)
  · intro c h
    exact fireCloseWhenIdle_of_not c false (by simp [h])

/-- Witness for C3 at concrete inputs: a mismatched notify and a mismatched
unforced close are both no-ops. -/
theorem drainState_forward_only_witness :
    fireNotifyPendingShutdown
        { state_ := DrainState.SENT_NOTIFY_PENDING_SHUTDOWN
          connectionManager_ := none
          pendingTimeout := none
          events := [HookEvent.notifyPendingShutdown] } =
      { state_ := DrainState.SENT_NOTIFY_PENDING_SHUTDOWN
        connectionManager_ := none
        pendingTimeout := none
        events := [HookEvent.notifyPendingShutdown] } ∧
    fireCloseWhenIdle false initialConnection = initialConnection := by
  constructor
  · exact drainState_forward_only.2.2.1 _ (by decide)
  · exact drainState_forward_only.2.2.2 initialConnection (by decide)

/-- Counterexample to C4 as stated: after the single operation
`fireCloseWhenIdle(true)` the connection visits the drain states
`[NONE, SENT_CLOSE_WHEN_IDLE]`, which is not a truncated initial segment of
`[NONE, SENT_NOTIFY_PENDING_SHUTDOWN, SENT_CLOSE_WHEN_IDLE]`. -/
theorem visitedStates_initial_segment_cex :
    dedupAdj (trajectory initialConnection [DrainOp.close true]) =
      [DrainState.NONE, DrainState.SENT_CLOSE_WHEN_IDLE] ∧
    dedupAdj (trajectory initialConnection [DrainOp.close true]) ∉ drainOrderInits ∧
    trajectory initialConnection [DrainOp.close true] ∉ drainOrderInits := by
  decide

/-- Claim C4, amended: the sequence of distinct drain states a connection
visits is always one of `[NONE]`, `[NONE, SENT_NOTIFY_PENDING_SHUTDOWN]`,
`[NONE, SENT_CLOSE_WHEN_IDLE]`,
`[NONE, SENT_NOTIFY_PENDING_SHUTDOWN, SENT_CLOSE_WHEN_IDLE]` — an
order-preserving subsequence of the full drain order — and it is a
truncated initial segment of the full drain order whenever no forced close
is issued. -/
theorem visitedStates_subsequence :
    (∀ ops : List DrainOp,
        dedupAdj (trajectory initialConnection ops) ∈
          tailsAllowed DrainState.NONE) ∧
    (∀ ops : List DrainOp, DrainOp.close true ∉ ops →
        dedupAdj (trajectory initialConnection ops) ∈ drainOrderInits) := by
  constructor
  · intro ops
    exact dedupAdj_trajectory_mem ops initialConnection
  · intro ops hmem
    have h := dedupAdj_trajectory_mem_noForce ops initialConnection hmem
    rw [show initialConnection.state_ = DrainState.NONE from rfl] at h
    simp [tailsAllowedNoForce] at h
    rcases h with h | h | h <;> simp [drainOrderInits, h]

/-- Witness for C4 (amended) at a concrete input: a plain notify sweep
visits `[NONE, SENT_NOTIFY_PENDING_SHUTDOWN]`, an initial segment of the
drain order. -/
theorem visitedStates_subsequence_witness :
    dedupAdj (trajectory initialConnection [DrainOp.notify]) ∈ drainOrderInits :=
  visitedStates_subsequence.2 [DrainOp.notify] (by decide)

/-- Counterexample to C5 as stated: two forced `fireCloseWhenIdle(true)`
calls invoke the `closeWhenIdle` hook twice, so the hook does not fire at
most once over every sequence of drain operations. -/
theorem closeWhenIdle_hook_refire_cex :
    (runOps initialConnection
        [DrainOp.close true, DrainOp.close true]).events.count
        HookEvent.closeWhenIdle = 2 ∧
    ¬((runOps initialConnection
        [DrainOp.close true, DrainOp.close true]).events.count
        HookEvent.closeWhenIdle ≤ 1) := by
  decide

/-- Claim C5, amended: over every sequence of drain operations the
`notifyPendingShutdown` hook fires at most once; when no forced close is
issued the whole hook log is a truncated initial segment of
`[notifyPendingShutdown, closeWhenIdle]`, so each hook also fires at most
once and `notifyPendingShutdown` precedes `closeWhenIdle` when both fire;
only repeated forced closes can re-fire `closeWhenIdle`. -/
theorem drain_hooks_at_most_once :
    (∀ ops : List DrainOp,
        (runOps initialConnection ops).events.count
            HookEvent.notifyPendingShutdown ≤ 1) ∧
    (∀ ops : List DrainOp, DrainOp.close true ∉ ops →
        (runOps initialConnection ops).events = [] ∨
        (runOps initialConnection ops).events = [HookEvent.notifyPendingShutdown] ∨
        (runOps initialConnection ops).events =
          [HookEvent.notifyPendingShutdown, HookEvent.closeWhenIdle]) := by
  constructor
  · intro ops
    exact (notifyInv_runOps ops initialConnection notifyInv_initial).1
  · intro ops hmem
    rcases sweepInv_runOps ops initialConnection hmem sweepInv_initial with
      ⟨_, he⟩ | ⟨_, he⟩ | ⟨_, he⟩
    · exact Or.inl he
    · exact Or.inr (Or.inl he)
    · exact Or.inr (Or.inr he)

/-- Witness for C5 (amended) at a concrete input: the standard unforced
sweep produces one of the allowed hook logs. -/
theorem drain_hooks_at_most_once_witness :
    (runOps initialConnection [DrainOp.notify, DrainOp.close false]).events = [] ∨
    (runOps initialConnection [DrainOp.notify, DrainOp.close false]).events =
      [HookEvent.notifyPendingShutdown] ∨
    (runOps initialConnection [DrainOp.notify, DrainOp.close false]).events =
      [HookEvent.notifyPendingShutdown, HookEvent.closeWhenIdle] :=
  drain_hooks_at_most_once.2 [DrainOp.notify, DrainOp.close false] (by decide)

/-- Claim C6: from the initial state, `fireNotifyPendingShutdown()` followed
by `fireCloseWhenIdle(false)` — a manager sweep — fires the
`notifyPendingShutdown` hook exactly once and the `closeWhenIdle` hook
exactly once, in that order. -/
theorem manager_sweep_scenario :
    (runOps initialConnection [DrainOp.notify, DrainOp.close false]).events =
      [HookEvent.notifyPendingShutdown, HookEvent.closeWhenIdle] ∧
    (runOps initialConnection [DrainOp.notify, DrainOp.close false]).events.count
        HookEvent.notifyPendingShutdown = 1 ∧
    (runOps initialConnection [DrainOp.notify, DrainOp.close false]).events.count
        HookEvent.closeWhenIdle = 1 := by
  decide

/-- Claim C7: `resetTimeout()` on a connection whose connection-manager
back-reference is null is a no-op: the connection (in particular its
pending timeout registration) is unchanged. -/
theorem resetTimeout_no_manager_noop (c : ManagedConnection)
    (h : c.connectionManager_ = none) : resetTimeout c = c := by
  unfold resetTimeout
  rw [h]

/-- Witness for C7 at a concrete input: a fresh connection has no manager,
and `resetTimeout` leaves it unchanged. -/
theorem resetTimeout_no_manager_noop_witness :
    resetTimeout initialConnection = initialConnection :=
  resetTimeout_no_manager_noop initialConnection rfl

/-- Claim C8: under the deferred-destruction guard protocol, the object is
never destructed while one of its callbacks is executing (a live guard
scope): in every reachable lifecycle state, destructed implies no guard
held, and a destruction request made while a guard is held defers instead
of destructing. -/
theorem deferred_destruction_safety :
    (∀ ops : List LifecycleOp,
        (runLifecycle initialLifecycle ops).destroyed = true →
        (runLifecycle initialLifecycle ops).guardCount = 0) ∧
    (∀ g : GuardedLifecycle, g.destroyed = false → 0 < g.guardCount →
        (lifecycleStep g LifecycleOp.destroy).destroyed = false ∧
        (lifecycleStep g LifecycleOp.destroy).guardCount = g.guardCount) := by
  constructor
  · intro ops
    refine lifecycleInv_run ops initialLifecycle ?_
    intro hcontra
    exact absurd hcontra (by decide)
  · exact lifecycleStep_destroy_deferred

/-- Witness for C8 at concrete inputs: destruction requested inside a
callback takes effect only after the callback exits, with no guard held;
the request itself leaves the object alive. -/
theorem deferred_destruction_safety_witness :
    (runLifecycle initialLifecycle
        [LifecycleOp.enterCallback, LifecycleOp.destroy,
         LifecycleOp.exitCallback]).guardCount = 0 ∧
    (lifecycleStep
        { guardCount := 1, destroyPending := false, destroyed := false }
        LifecycleOp.destroy).destroyed = false := by
  constructor
  · exact deferred_destruction_safety.1
      [LifecycleOp.enterCallback, LifecycleOp.destroy, LifecycleOp.exitCallback]
      (by decide)
  · exact (deferred_destruction_safety.2
      { guardCount := 1, destroyPending := false, destroyed := false }
      rfl (by decide)).1

/-- Claim C9: the default `getIdleTime` implementation returns 0
milliseconds, and a connection reporting 0 idle time is never selected by
idle-based pre-load-shedding eviction, whatever the eviction threshold. -/
theorem default_idle_time_never_evicted :
    defaultGetIdleTime = 0 ∧
    ∀ threshold : Nat,
      idleEvictionSelects defaultGetIdleTime threshold = false := by
  refine ⟨rfl, ?_⟩
  intro threshold
  simp [idleEvictionSelects, defaultGetIdleTime]

/-- Claim C10: the drain operations change no field of the connection other
than the drain state (beyond invoking the subtype hook): the
connection-manager back-reference and the pending timeout registration are
untouched, and `getConnectionManager` returns exactly the pointer most
recently passed to `setConnectionManager`, through any sequence of drain
operations. -/
theorem drain_ops_frame :
    (∀ (c : ManagedConnection) (force_to_close : Bool),
        (fireNotifyPendingShutdown c).connectionManager_ = c.connectionManager_ ∧
        (fireNotifyPendingShutdown c).pendingTimeout = c.pendingTimeout ∧
        (fireCloseWhenIdle force_to_close c).connectionManager_ =
          c.connectionManager_ ∧
        (fireCloseWhenIdle force_to_close c).pendingTimeout = c.pendingTimeout) ∧
    (∀ (c : ManagedConnection) (mgr : Option ConnectionManager)
        (ops : List DrainOp),
        getConnectionManager (runOps (setConnectionManager mgr c) ops) = mgr) := by
  constructor
  · intro c force_to_close
    exact ⟨(fireNotifyPendingShutdown_frame c).1,
           (fireNotifyPendingShutdown_frame c).2,
           (fireCloseWhenIdle_frame c force_to_close).1,
           (fireCloseWhenIdle_frame c force_to_close).2⟩
  · intro c mgr ops
    rw [getConnectionManager, runOps_connectionManager ops, setConnectionManager]

end Wangle
